import Mathlib

/-
  Verification development for the PEEV inventory/sales application.

  The definitions below are a shallow embedding of the application's core:
  * `recordSaleTransaction` — the multi-line sale committer
    (src/data/transactions.ts, the `runTransaction` callback; authentication
    and profile lookup are modelled as an already-resolved `teamId` argument,
    and the Firestore server timestamp as an explicit `now` argument).
  * the COGS module (src/utils/cogs.ts): `calculateShipmentWAC`,
    `calculateSaleItemsCOGS`, `calculateLegacySalesCOGS`,
    `calculateTotalCOGS`, `calculateCOGSForDateRange`.
  * the DashboardPage revenue/COGS expressions and the SalesPage /
    InventoryPage per-unit cost display expression.

  JS numbers holding integer cents are modelled as `Int`; the WAC divisions
  are modelled over `ℚ`.  Dates are modelled as integer instants (the code
  only compares them with `>=` / `<=`).  Firestore document reads are
  modelled as list lookups; the transaction primitive's abort-on-throw
  semantics is `runRecordSaleTransaction`, which keeps the original store
  when the callback returns an error.
-/

namespace Peev

/-- One `inventory` document (domain/models.ts `InventorySchema`).
`shipmentId` survives from the legacy schema and is absent (`none`) under the
current shipment-less model; the cogs module still reads it. -/
structure InventoryItem where
  id : String
  teamId : String
  shipmentId : Option String := none
  totalCost : Int
  purchaseQuantity : Int
  unitsPerPack : Int
  initialQuantity : Int
  currentStock : Int
deriving DecidableEq

/-- A legacy `shipments` document: the lot that pooled-cost batches share. -/
structure Shipment where
  id : String
  totalCost : Int
deriving DecidableEq

/-- A persisted `saleItems` document as read by reporting (`SaleItemSchema`). -/
structure SaleItem where
  id : String
  transactionId : String
  inventoryId : String
  quantitySold : Int
  pricePerItem : Int
deriving DecidableEq

/-- A legacy single-line sale document (`LegacySaleSchema`). -/
structure LegacySale where
  id : String
  inventoryId : String
  quantitySold : Int
  pricePerItem : Int
  saleDate : Int
deriving DecidableEq

/-- A persisted `transactions` document as read by reporting
(`TransactionSchema`; only the fields the reporting code touches). -/
structure Transaction where
  id : String
  saleDate : Int
  total : Int
deriving DecidableEq

/-! ## COGS module (src/utils/cogs.ts) -/

/-- The `unitsReceived` reduction inside `calculateShipmentWAC`:
sum of `initialQuantity` over the inventory items filtered to the shipment. -/
def shipmentUnitsReceived (shipment : Shipment) (inventoryItems : List InventoryItem) : Int :=
  ((inventoryItems.filter (fun inv => inv.shipmentId == some shipment.id)).foldl
    (fun sum inv => sum + inv.initialQuantity) 0)

/-- `calculateShipmentWAC`: weighted average cost of a shipment,
`totalCost / unitsReceived`, and `0` when `unitsReceived = 0`. -/
def calculateShipmentWAC (shipment : Shipment) (inventoryItems : List InventoryItem) : ℚ :=
  let unitsReceived := shipmentUnitsReceived shipment inventoryItems
  if unitsReceived = 0 then 0
  else (shipment.totalCost : ℚ) / (unitsReceived : ℚ)

/-- One row of the itemized COGS output. -/
structure ItemizedEntry where
  itemId : String
  shipmentId : String
  quantitySold : Int
  unitCost : ℚ
  itemCOGS : ℚ
deriving DecidableEq

/-- Result shape of the COGS calculations. -/
structure COGSCalculation where
  totalCOGS : ℚ
  itemizedCOGS : List ItemizedEntry
deriving DecidableEq

/-- `calculateSaleItemsCOGS`: per-record, resolve the inventory item, then its
shipment; unresolved records are skipped (`return` inside `forEach`);
resolved records contribute `WAC × quantitySold`. -/
def calculateSaleItemsCOGS : List SaleItem → List InventoryItem → List Shipment → COGSCalculation
  | [], _, _ => ⟨0, []⟩
  | item :: rest, inventoryItems, shipments =>
    let tail := calculateSaleItemsCOGS rest inventoryItems shipments
    match inventoryItems.find? (fun inv => inv.id == item.inventoryId) with
    | none => tail
    | some inventory =>
      match shipments.find? (fun s => inventory.shipmentId == some s.id) with
      | none => tail
      | some shipment =>
        let unitCost := calculateShipmentWAC shipment inventoryItems
        let itemCOGS := unitCost * (item.quantitySold : ℚ)
        ⟨itemCOGS + tail.totalCOGS,
          ⟨item.id, shipment.id, item.quantitySold, unitCost, itemCOGS⟩ :: tail.itemizedCOGS⟩

/-- `calculateLegacySalesCOGS`: same shape as `calculateSaleItemsCOGS` over
legacy sale records. -/
def calculateLegacySalesCOGS : List LegacySale → List InventoryItem → List Shipment → COGSCalculation
  | [], _, _ => ⟨0, []⟩
  | sale :: rest, inventoryItems, shipments =>
    let tail := calculateLegacySalesCOGS rest inventoryItems shipments
    match inventoryItems.find? (fun inv => inv.id == sale.inventoryId) with
    | none => tail
    | some inventory =>
      match shipments.find? (fun s => inventory.shipmentId == some s.id) with
      | none => tail
      | some shipment =>
        let unitCost := calculateShipmentWAC shipment inventoryItems
        let itemCOGS := unitCost * (sale.quantitySold : ℚ)
        ⟨itemCOGS + tail.totalCOGS,
          ⟨sale.id, shipment.id, sale.quantitySold, unitCost, itemCOGS⟩ :: tail.itemizedCOGS⟩

/-- `calculateTotalCOGS`: new-model COGS plus legacy COGS. -/
def calculateTotalCOGS (saleItems : List SaleItem) (legacySales : List LegacySale)
    (inventoryItems : List InventoryItem) (shipments : List Shipment) : ℚ :=
  (calculateSaleItemsCOGS saleItems inventoryItems shipments).totalCOGS +
  (calculateLegacySalesCOGS legacySales inventoryItems shipments).totalCOGS

/-- `calculateCOGSForDateRange`: filter transactions to the inclusive window,
keep the sale items whose `transactionId` is among the filtered transactions,
filter legacy sales by their own `saleDate`, then total the COGS. -/
def calculateCOGSForDateRange (saleItems : List SaleItem) (legacySales : List LegacySale)
    (inventoryItems : List InventoryItem) (shipments : List Shipment)
    (transactions : List Transaction) (startDate endDate : Int) : ℚ :=
  let filteredTransactions := transactions.filter
    (fun t => decide (startDate ≤ t.saleDate) && decide (t.saleDate ≤ endDate))
  let transactionIds := filteredTransactions.map (fun t => t.id)
  let filteredSaleItems := saleItems.filter (fun item => transactionIds.contains item.transactionId)
  let filteredLegacySales := legacySales.filter
    (fun sale => decide (startDate ≤ sale.saleDate) && decide (sale.saleDate ≤ endDate))
  calculateTotalCOGS filteredSaleItems filteredLegacySales inventoryItems shipments

/-! ## DashboardPage revenue and COGS expressions (src/pages/DashboardPage.tsx) -/

/-- `transactionRevenueAll`: `reduce((sum, t) => sum + t.total, 0)`. -/
def transactionRevenueAll (transactions : List Transaction) : Int :=
  transactions.foldl (fun sum t => sum + t.total) 0

/-- `legacyRevenueAll`: `reduce((sum, s) => sum + s.pricePerItem * s.quantitySold, 0)`. -/
def legacyRevenueAll (legacySales : List LegacySale) : Int :=
  legacySales.foldl (fun sum s => sum + s.pricePerItem * s.quantitySold) 0

/-- `cogsAll` on the dashboard: `calculateTotalCOGS` with an empty shipments
array ("since we no longer use them"). -/
def dashboardCogsAll (saleItems : List SaleItem) (legacySales : List LegacySale)
    (inventoryItems : List InventoryItem) : ℚ :=
  calculateTotalCOGS saleItems legacySales inventoryItems []

/-- `cogsMonth` on the dashboard: `calculateCOGSForDateRange` with an empty
shipments array. -/
def dashboardCogsMonth (saleItems : List SaleItem) (legacySales : List LegacySale)
    (inventoryItems : List InventoryItem) (transactions : List Transaction)
    (startOfMonth endOfMonth : Int) : ℚ :=
  calculateCOGSForDateRange saleItems legacySales inventoryItems [] transactions
    startOfMonth endOfMonth

/-! ## SalesPage / InventoryPage direct-batch unit cost display -/

/-- The per-unit cost expression of SalesPage.tsx / InventoryPage.tsx:
`totalCost = (inv.totalCost || 0) / 100` (dollars),
`purchaseQuantity = inv.purchaseQuantity || 1`,
`unitsPerPack = inv.unitsPerPack || inv.initialQuantity`,
`unitCost = totalCost / (purchaseQuantity * unitsPerPack)`. -/
def salesPageUnitCostDollars (inv : InventoryItem) : ℚ :=
  let totalCost : ℚ := (inv.totalCost : ℚ) / 100
  let purchaseQuantity : Int := if inv.purchaseQuantity = 0 then 1 else inv.purchaseQuantity
  let unitsPerPack : Int := if inv.unitsPerPack = 0 then inv.initialQuantity else inv.unitsPerPack
  totalCost / ((purchaseQuantity * unitsPerPack : Int) : ℚ)

/-! ## Sale transaction committer (src/data/transactions.ts `recordSaleTransaction`) -/

/-- One requested line of a sale (`SaleItemData`). -/
structure SaleItemData where
  inventoryId : String
  quantitySold : Int
  pricePerItemCents : Int
deriving DecidableEq

/-- The committer's input (`TransactionData`). -/
structure TransactionData where
  items : List SaleItemData
  customerName : Option String := none
  tax : Option Int := none
  discount : Option Int := none
deriving DecidableEq

/-- The `transactions` document the committer writes (fields the code sets;
`serverTimestamp()` is the explicit `saleDate`, generated document ids are
naturals drawn from the store's counter). -/
structure TxDoc where
  id : Nat
  saleDate : Int
  customerName : Option String
  subtotal : Int
  tax : Option Int
  discount : Option Int
  total : Int
  teamId : String
deriving DecidableEq

/-- The `saleItems` document the committer writes per input line. -/
structure SaleLineDoc where
  transactionId : Nat
  inventoryId : String
  quantitySold : Int
  pricePerItem : Int
  lineTotal : Int
  teamId : String
deriving DecidableEq

/-- The persisted state the committer touches: the `inventory`, `transactions`
and `saleItems` collections, plus a counter standing in for Firestore's
fresh-document-id generation. -/
structure Store where
  inventory : List InventoryItem
  transactions : List TxDoc
  saleItems : List SaleLineDoc
  nextId : Nat
deriving DecidableEq

/-- The typed errors the committer can throw. -/
inductive SaleError where
  | emptyTransaction
  | notFound (inventoryId : String)
  | notAuthorized
  | insufficientStock (available requested : Int)
deriving DecidableEq

/-- One entry of the `inventoryUpdates` array built during validation. -/
structure InventoryUpdate where
  ref : String
  currentStock : Int
  newStock : Int
deriving DecidableEq

/-- Point read of an inventory document (`transaction.get(doc(db, 'inventory', id))`). -/
def findInventory (inventory : List InventoryItem) (id : String) : Option InventoryItem :=
  inventory.find? (fun inv => inv.id == id)

/-- Phase 1 of the committer's transaction callback: for each requested line,
read the inventory document (`NotFound` when absent), check team ownership,
check `currentStock < quantitySold` (`InsufficientStock` carrying
available/requested), and accumulate the staged stock updates and the
subtotal.  All reads see the same snapshot (`inventory`), as Firestore
transaction reads do, and the first failing line aborts the callback. -/
def validateItems (inventory : List InventoryItem) (teamId : String) :
    List SaleItemData → Except SaleError (List InventoryUpdate × Int)
  | [] => .ok ([], 0)
  | item :: rest =>
    match findInventory inventory item.inventoryId with
    | none => .error (.notFound item.inventoryId)
    | some inv =>
      if inv.teamId ≠ teamId then .error .notAuthorized
      else if inv.currentStock < item.quantitySold then
        .error (.insufficientStock inv.currentStock item.quantitySold)
      else
        match validateItems inventory teamId rest with
        | .error e => .error e
        | .ok (updates, subtotal) =>
          .ok (⟨item.inventoryId, inv.currentStock, inv.currentStock - item.quantitySold⟩ :: updates,
            item.pricePerItemCents * item.quantitySold + subtotal)

/-- Phase 5 of the callback: apply each staged `transaction.update` in order,
setting `currentStock` of the matching document (a later update to the same
document overwrites an earlier one, as staged Firestore writes do). -/
def applyStockUpdates (inventory : List InventoryItem) (updates : List InventoryUpdate) :
    List InventoryItem :=
  updates.foldl
    (fun invs u => invs.map (fun inv => if inv.id == u.ref then { inv with currentStock := u.newStock } else inv))
    inventory

/-- `recordSaleTransaction`: reject an empty item list, validate every line,
compute `tax`/`discount` defaults (`|| 0`), `total = subtotal + tax - discount`,
then stage the transaction document, one sale-item document per line
(`lineTotal = pricePerItemCents * quantitySold`), and the stock updates.
Returns the committed store, or the thrown error. -/
def recordSaleTransaction (store : Store) (teamId : String) (now : Int)
    (data : TransactionData) : Except SaleError Store :=
  if data.items.length = 0 then .error .emptyTransaction
  else
    match validateItems store.inventory teamId data.items with
    | .error e => .error e
    | .ok (inventoryUpdates, subtotal) =>
      let tax := data.tax.getD 0
      let discount := data.discount.getD 0
      let total := subtotal + tax - discount
      let txId := store.nextId
      let txDoc : TxDoc :=
        { id := txId
          saleDate := now
          customerName := match data.customerName with
            | none => none
            | some s => if s = "" then none else some s
          subtotal := subtotal
          tax := if tax = 0 then none else some tax
          discount := if discount = 0 then none else some discount
          total := total
          teamId := teamId }
      let saleLines : List SaleLineDoc := data.items.map (fun item =>
        { transactionId := txId
          inventoryId := item.inventoryId
          quantitySold := item.quantitySold
          pricePerItem := item.pricePerItemCents
          lineTotal := item.pricePerItemCents * item.quantitySold
          teamId := teamId })
      .ok
        { inventory := applyStockUpdates store.inventory inventoryUpdates
          transactions := store.transactions ++ [txDoc]
          saleItems := store.saleItems ++ saleLines
          nextId := store.nextId + 1 }

/-- `runTransaction` semantics around the callback: a thrown error aborts the
transaction and discards every staged write, leaving the store unchanged. -/
def runRecordSaleTransaction (store : Store) (teamId : String) (now : Int)
    (data : TransactionData) : Store :=
  match recordSaleTransaction store teamId now data with
  | .ok s => s
  | .error _ => store

/-- A line fails the callback's validation phase: its batch is missing, or
owned by another team, or has insufficient stock. -/
def failsValidation (inventory : List InventoryItem) (teamId : String) (item : SaleItemData) : Prop :=
  findInventory inventory item.inventoryId = none ∨
  (∃ inv, findInventory inventory item.inventoryId = some inv ∧
    (inv.teamId ≠ teamId ∨ inv.currentStock < item.quantitySold))

/-- Whether the committer's transaction committed (`Except.ok`). -/
def commitSucceeded : Except SaleError Store → Bool
  | .ok _ => true
  | .error _ => false

/-- The COGS contribution of a single sale-item record under the resolution
logic of `calculateSaleItemsCOGS`: `0` when its inventory item or that
item's shipment cannot be resolved, `WAC × quantitySold` otherwise. -/
def saleItemContribution (inventoryItems : List InventoryItem) (shipments : List Shipment)
    (item : SaleItem) : ℚ :=
  match inventoryItems.find? (fun inv => inv.id == item.inventoryId) with
  | none => 0
  | some inventory =>
    match shipments.find? (fun s => inventory.shipmentId == some s.id) with
    | none => 0
    | some shipment => calculateShipmentWAC shipment inventoryItems * (item.quantitySold : ℚ)

/-- The COGS contribution of a single legacy sale record, mirroring
`calculateLegacySalesCOGS`. -/
def legacySaleContribution (inventoryItems : List InventoryItem) (shipments : List Shipment)
    (sale : LegacySale) : ℚ :=
  match inventoryItems.find? (fun inv => inv.id == sale.inventoryId) with
  | none => 0
  | some inventory =>
    match shipments.find? (fun s => inventory.shipmentId == some s.id) with
    | none => 0
    | some shipment => calculateShipmentWAC shipment inventoryItems * (sale.quantitySold : ℚ)

/-! ## Concrete fixtures used by the scenario theorems and witnesses -/

/-- A batch with 3 units remaining out of 3 received (spec scenario C). -/
def c3Batch : InventoryItem :=
  { id := "b1", teamId := "t1", shipmentId := none, totalCost := 0,
    purchaseQuantity := 1, unitsPerPack := 3, initialQuantity := 3, currentStock := 3 }

/-- Store holding only `c3Batch`. -/
def c3Store : Store := { inventory := [c3Batch], transactions := [], saleItems := [], nextId := 0 }

/-- A sale request with a negative quantity (-2) against `c3Batch`. -/
def c3Data : TransactionData :=
  { items := [{ inventoryId := "b1", quantitySold := -2, pricePerItemCents := 100 }] }

/-- A sale request with quantity 0 against `c3Batch`. -/
def c5Data : TransactionData :=
  { items := [{ inventoryId := "b1", quantitySold := 0, pricePerItemCents := 100 }] }

/-- Scenario A batch: totalCost 2400 cents, 1 pack of 24 units. -/
def c6Batch : InventoryItem :=
  { id := "a1", teamId := "t6", shipmentId := none, totalCost := 2400,
    purchaseQuantity := 1, unitsPerPack := 24, initialQuantity := 24, currentStock := 24 }

/-- Store holding only `c6Batch`. -/
def c6Store : Store := { inventory := [c6Batch], transactions := [], saleItems := [], nextId := 0 }

/-- Scenario A sale request: 3 units at 150 cents. -/
def c6Data : TransactionData :=
  { items := [{ inventoryId := "a1", quantitySold := 3, pricePerItemCents := 150 }] }

/-- Scenario B lot: total cost 100000 cents. -/
def c8Shipment : Shipment := { id := "lot1", totalCost := 100000 }

/-- First scenario B batch: 50 units received from `lot1`. -/
def c8BatchA : InventoryItem :=
  { id := "p1", teamId := "t8", shipmentId := some "lot1", totalCost := 0,
    purchaseQuantity := 1, unitsPerPack := 50, initialQuantity := 50, currentStock := 50 }

/-- Second scenario B batch: 50 units received from `lot1`. -/
def c8BatchB : InventoryItem :=
  { id := "p2", teamId := "t8", shipmentId := some "lot1", totalCost := 0,
    purchaseQuantity := 1, unitsPerPack := 50, initialQuantity := 50, currentStock := 50 }

/-- Scenario B sold line: 10 units drawn from batch `p1`. -/
def c8SaleItem : SaleItem :=
  { id := "s1", transactionId := "tx1", inventoryId := "p1", quantitySold := 10, pricePerItem := 0 }

/-- A sold-line record whose `inventoryId` resolves to no batch. -/
def c9OrphanItem : SaleItem :=
  { id := "o1", transactionId := "txo", inventoryId := "ghost", quantitySold := 4, pricePerItem := 250 }

/-- Witness batch: 3 units in stock, owned by team `tw`. -/
def wBatch : InventoryItem :=
  { id := "w1", teamId := "tw", shipmentId := none, totalCost := 0,
    purchaseQuantity := 1, unitsPerPack := 10, initialQuantity := 10, currentStock := 3 }

/-- Store holding only `wBatch`. -/
def wStore : Store := { inventory := [wBatch], transactions := [], saleItems := [], nextId := 0 }

/-- Oversell request: 5 units against the 3 in stock (spec scenario C). -/
def wOversellData : TransactionData :=
  { items := [{ inventoryId := "w1", quantitySold := 5, pricePerItemCents := 100 }] }

/-- Request referencing a missing batch id. -/
def wMissingData : TransactionData :=
  { items := [{ inventoryId := "zz", quantitySold := 1, pricePerItemCents := 100 }] }

/-- A valid request: 2 units at 150 cents with tax 10 and discount 5. -/
def wOkData : TransactionData :=
  { items := [{ inventoryId := "w1", quantitySold := 2, pricePerItemCents := 150 }],
    customerName := none, tax := some 10, discount := some 5 }

/-! ## Helper lemmas -/

/-- With no shipments, every record of `calculateSaleItemsCOGS` is skipped. -/
theorem calculateSaleItemsCOGS_empty_shipments :
    ∀ (saleItems : List SaleItem) (inventoryItems : List InventoryItem),
      calculateSaleItemsCOGS saleItems inventoryItems [] = ⟨0, []⟩ := by
  intro saleItems invs
  induction saleItems with
  | nil => rfl
  | cons item rest ih =>
    simp only [calculateSaleItemsCOGS, ih]
    cases invs.find? (fun inv => inv.id == item.inventoryId) <;> rfl

/-- With no shipments, every record of `calculateLegacySalesCOGS` is skipped. -/
theorem calculateLegacySalesCOGS_empty_shipments :
    ∀ (legacySales : List LegacySale) (inventoryItems : List InventoryItem),
      calculateLegacySalesCOGS legacySales inventoryItems [] = ⟨0, []⟩ := by
  intro legacySales invs
  induction legacySales with
  | nil => rfl
  | cons sale rest ih =>
    simp only [calculateLegacySalesCOGS, ih]
    cases invs.find? (fun inv => inv.id == sale.inventoryId) <;> rfl

/-- When every line's batch exists and is owned by the caller's team, and
some line requests more than its batch's stock, validation fails with
`InsufficientStock` carrying the first such line's available/requested pair. -/
theorem validateItems_oversell_error (inventory : List InventoryItem) (teamId : String) :
    ∀ items : List SaleItemData,
      (∀ item ∈ items, ∃ inv, findInventory inventory item.inventoryId = some inv ∧
        inv.teamId = teamId) →
      (∃ item ∈ items, ∃ inv, findInventory inventory item.inventoryId = some inv ∧
        inv.currentStock < item.quantitySold) →
      ∃ item ∈ items, ∃ inv, findInventory inventory item.inventoryId = some inv ∧
        inv.currentStock < item.quantitySold ∧
        validateItems inventory teamId items =
          .error (.insufficientStock inv.currentStock item.quantitySold) := by
  intro items
  induction items with
  | nil => intro _ hover; simp at hover
  | cons item rest ih =>
    intro hall hover
    obtain ⟨inv, hfind, hteam⟩ := hall item (List.mem_cons_self item rest)
    by_cases hlt : inv.currentStock < item.quantitySold
    · refine ⟨item, List.mem_cons_self item rest, inv, hfind, hlt, ?_⟩
      simp [validateItems, hfind, hteam, hlt]
    · obtain ⟨item0, hmem0, inv0, hfind0, hlt0⟩ := hover
      have hmem0r : item0 ∈ rest := by
        rcases List.mem_cons.mp hmem0 with h | h
        · subst h
          rw [hfind] at hfind0
          have hinj : inv = inv0 := Option.some.inj hfind0
          subst hinj
          exact absurd hlt0 hlt
        · exact h
      obtain ⟨it, hmem, invv, hf, hl, heq⟩ :=
        ih (fun x hx => hall x (List.mem_cons_of_mem _ hx)) ⟨item0, hmem0r, inv0, hfind0, hlt0⟩
      refine ⟨it, List.mem_cons_of_mem _ hmem, invv, hf, hl, ?_⟩
      simp [validateItems, hfind, hteam, hlt, heq]

/-- If any line fails validation (missing batch, foreign team, or
insufficient stock), the whole validation phase returns an error. -/
theorem validateItems_fails_error (inventory : List InventoryItem) (teamId : String) :
    ∀ items : List SaleItemData,
      (∃ item ∈ items, failsValidation inventory teamId item) →
      ∃ e, validateItems inventory teamId items = .error e := by
  intro items
  induction items with
  | nil => intro h; simp at h
  | cons item rest ih =>
    intro h
    cases hfind : findInventory inventory item.inventoryId with
    | none => exact ⟨.notFound item.inventoryId, by simp [validateItems, hfind]⟩
    | some inv =>
      by_cases hteam : inv.teamId = teamId
      · by_cases hlt : inv.currentStock < item.quantitySold
        · exact ⟨.insufficientStock inv.currentStock item.quantitySold,
            by simp [validateItems, hfind, hteam, hlt]⟩
        · obtain ⟨item0, hmem0, hfail0⟩ := h
          have hmem0r : item0 ∈ rest := by
            rcases List.mem_cons.mp hmem0 with hh | hh
            · subst hh
              rcases hfail0 with hnone | ⟨inv0, hfind0, hbad⟩
              · rw [hfind] at hnone; exact Option.noConfusion hnone
              · rw [hfind] at hfind0
                have hinj : inv = inv0 := Option.some.inj hfind0
                subst hinj
                rcases hbad with hb | hb
                · exact absurd hteam hb
                · exact absurd hb hlt
            · exact hh
          obtain ⟨e, heq⟩ := ih ⟨item0, hmem0r, hfail0⟩
          exact ⟨e, by simp [validateItems, hfind, hteam, hlt, heq]⟩
      · exact ⟨.notAuthorized, by simp [validateItems, hfind, hteam]⟩

/-- A successful validation's accumulated subtotal is the sum of
`pricePerItemCents × quantitySold` over the input lines. -/
theorem validateItems_ok_subtotal (inventory : List InventoryItem) (teamId : String) :
    ∀ (items : List SaleItemData) (updates : List InventoryUpdate) (subtotal : Int),
      validateItems inventory teamId items = .ok (updates, subtotal) →
      subtotal = (items.map (fun item => item.pricePerItemCents * item.quantitySold)).sum := by
  intro items
  induction items with
  | nil =>
    intro updates subtotal h
    simp [validateItems] at h
    simp [← h.2]
  | cons item rest ih =>
    intro updates subtotal h
    cases hfind : findInventory inventory item.inventoryId with
    | none => simp [validateItems, hfind] at h
    | some inv =>
      by_cases hteam : inv.teamId = teamId
      · by_cases hlt : inv.currentStock < item.quantitySold
        · simp [validateItems, hfind, hteam, hlt] at h
        · cases hrec : validateItems inventory teamId rest with
          | error e => simp [validateItems, hfind, hteam, hlt, hrec] at h
          | ok p =>
            obtain ⟨u, s⟩ := p
            simp [validateItems, hfind, hteam, hlt, hrec] at h
            obtain ⟨h1, h2⟩ := h
            subst h2
            simp [List.sum_cons]
            rw [ih u s hrec]
      · simp [validateItems, hfind, hteam] at h

/-! ## Claim theorems -/

/-- C7: for every list of sale items, legacy sales and inventory items,
`calculateTotalCOGS(saleItems, legacySales, inventoryItems, [])` is `0`:
with an empty shipments list every record's shipment lookup fails and the
record is skipped, so the dashboard's all-time (`dashboardCogsAll`) and
monthly (`dashboardCogsMonth`) COGS figures, which pass an empty shipments
array, are always `0` regardless of what was sold. -/
theorem calculateTotalCOGS_empty_shipments_zero :
    ∀ (saleItems : List SaleItem) (legacySales : List LegacySale)
      (inventoryItems : List InventoryItem) (transactions : List Transaction)
      (startDate endDate : Int),
      calculateTotalCOGS saleItems legacySales inventoryItems [] = 0 ∧
      dashboardCogsAll saleItems legacySales inventoryItems = 0 ∧
      dashboardCogsMonth saleItems legacySales inventoryItems transactions startDate endDate = 0 := by
  intro saleItems legacySales invs txs s e
  have h1 : ∀ (xs : List SaleItem) (ys : List LegacySale), calculateTotalCOGS xs ys invs [] = 0 := by
    intro xs ys
    simp [calculateTotalCOGS, calculateSaleItemsCOGS_empty_shipments,
      calculateLegacySalesCOGS_empty_shipments]
  refine ⟨h1 saleItems legacySales, h1 saleItems legacySales, ?_⟩
  simp only [dashboardCogsMonth, calculateCOGSForDateRange]
  exact h1 _ _

/-- C3 (code bug evidence): the committer accepts a line with negative
quantity (it has no `quantity > 0` check), and committing quantity -2
against a batch with `initialQuantity = 3`, `currentStock = 3` raises the
stock to 5, violating `quantity-remaining ≤ quantity-received`. -/
theorem recordSale_negative_quantity_violates_stock_invariant :
    commitSucceeded (recordSaleTransaction c3Store "t1" 0 c3Data) = true ∧
    ∃ inv ∈ (runRecordSaleTransaction c3Store "t1" 0 c3Data).inventory,
      inv.id = "b1" ∧ inv.initialQuantity = 3 ∧ inv.currentStock = 5 ∧
      ¬ inv.currentStock ≤ inv.initialQuantity := by decide

/-- C5 (code bug evidence): a sale whose only line has quantity 0 is
committed by `recordSaleTransaction` — a transaction document and a sale
line are persisted — instead of failing with an invalid-quantity error as
the spec requires (only the legacy single-line committer has that check). -/
theorem recordSale_zero_quantity_commits :
    commitSucceeded (recordSaleTransaction c3Store "t1" 0 c5Data) = true ∧
    (runRecordSaleTransaction c3Store "t1" 0 c5Data).transactions.length = 1 ∧
    (runRecordSaleTransaction c3Store "t1" 0 c5Data).saleItems.length = 1 ∧
    ∃ l ∈ (runRecordSaleTransaction c3Store "t1" 0 c5Data).saleItems,
      l.quantitySold = 0 := by decide

/-- C1: when every line references an existing batch of the caller's team and
some line requests a quantity greater than its batch's remaining stock,
`recordSaleTransaction` fails with an `InsufficientStock` error reporting the
available and requested quantities, and the aborted transaction leaves the
whole store (batch stock and all transaction state) unchanged. -/
theorem recordSale_oversell_fails_insufficientStock
    (store : Store) (teamId : String) (now : Int) (data : TransactionData)
    (hall : ∀ item ∈ data.items, ∃ inv,
      findInventory store.inventory item.inventoryId = some inv ∧ inv.teamId = teamId)
    (hover : ∃ item ∈ data.items, ∃ inv,
      findInventory store.inventory item.inventoryId = some inv ∧
      inv.currentStock < item.quantitySold) :
    (∃ item ∈ data.items, ∃ inv,
      findInventory store.inventory item.inventoryId = some inv ∧
      inv.currentStock < item.quantitySold ∧
      recordSaleTransaction store teamId now data =
        .error (.insufficientStock inv.currentStock item.quantitySold)) ∧
    runRecordSaleTransaction store teamId now data = store := by
  obtain ⟨it, hmem, inv, hf, hl, heq⟩ :=
    validateItems_oversell_error store.inventory teamId data.items hall hover
  have hne : ¬ data.items.length = 0 := by
    cases hitems : data.items with
    | nil => rw [hitems] at hmem; simp at hmem
    | cons a l => simp [hitems]
  have hres : recordSaleTransaction store teamId now data =
      .error (.insufficientStock inv.currentStock it.quantitySold) := by
    unfold recordSaleTransaction
    rw [if_neg hne, heq]
  refine ⟨⟨it, hmem, inv, hf, hl, hres⟩, ?_⟩
  unfold runRecordSaleTransaction
  rw [hres]

/-- C1 witness: scenario C — requesting 5 units against a batch with 3 in
stock fails with `InsufficientStock(available 3, requested 5)` and leaves
the store unchanged. -/
theorem recordSale_oversell_fails_insufficientStock_witness :
    ((∀ item ∈ wOversellData.items, ∃ inv,
        findInventory wStore.inventory item.inventoryId = some inv ∧ inv.teamId = "tw") ∧
      (∃ item ∈ wOversellData.items, ∃ inv,
        findInventory wStore.inventory item.inventoryId = some inv ∧
        inv.currentStock < item.quantitySold)) ∧
    ((∃ item ∈ wOversellData.items, ∃ inv,
        findInventory wStore.inventory item.inventoryId = some inv ∧
        inv.currentStock < item.quantitySold ∧
        recordSaleTransaction wStore "tw" 0 wOversellData =
          .error (.insufficientStock inv.currentStock item.quantitySold)) ∧
      runRecordSaleTransaction wStore "tw" 0 wOversellData = wStore) := by
  have hall : ∀ item ∈ wOversellData.items, ∃ inv,
      findInventory wStore.inventory item.inventoryId = some inv ∧ inv.teamId = "tw" := by
    intro item hm
    simp [wOversellData] at hm
    subst hm
    exact ⟨wBatch, rfl, rfl⟩
  have hover : ∃ item ∈ wOversellData.items, ∃ inv,
      findInventory wStore.inventory item.inventoryId = some inv ∧
      inv.currentStock < item.quantitySold := by
    refine ⟨⟨"w1", 5, 100⟩, ?_, wBatch, rfl, by decide⟩
    simp [wOversellData]
  exact ⟨⟨hall, hover⟩,
    recordSale_oversell_fails_insufficientStock wStore "tw" 0 wOversellData hall hover⟩

/-- C2: if any line of a multi-line sale fails validation (batch missing,
team ownership mismatch, or insufficient stock), the commit returns an error
and — because a thrown error aborts the storage transaction before any staged
write is applied — no transaction document, no sale-line records, and no
batch stock debits are persisted. -/
theorem recordSale_validation_failure_aborts_all
    (store : Store) (teamId : String) (now : Int) (data : TransactionData)
    (h : ∃ item ∈ data.items, failsValidation store.inventory teamId item) :
    (∃ e, recordSaleTransaction store teamId now data = .error e) ∧
    (runRecordSaleTransaction store teamId now data).transactions = store.transactions ∧
    (runRecordSaleTransaction store teamId now data).saleItems = store.saleItems ∧
    (runRecordSaleTransaction store teamId now data).inventory = store.inventory := by
  obtain ⟨it, hmem, hfail⟩ := h
  obtain ⟨e, heq⟩ := validateItems_fails_error store.inventory teamId data.items ⟨it, hmem, hfail⟩
  have hne : ¬ data.items.length = 0 := by
    cases hitems : data.items with
    | nil => rw [hitems] at hmem; simp at hmem
    | cons a l => simp [hitems]
  have hres : recordSaleTransaction store teamId now data = .error e := by
    unfold recordSaleTransaction
    rw [if_neg hne, heq]
  have hrun : runRecordSaleTransaction store teamId now data = store := by
    unfold runRecordSaleTransaction
    rw [hres]
  exact ⟨⟨e, hres⟩, by rw [hrun], by rw [hrun], by rw [hrun]⟩

/-- C2 witness: a sale whose line references a missing batch id aborts with
an error and persists nothing. -/
theorem recordSale_validation_failure_aborts_all_witness :
    (∃ item ∈ wMissingData.items, failsValidation wStore.inventory "tw" item) ∧
    ((∃ e, recordSaleTransaction wStore "tw" 0 wMissingData = .error e) ∧
      (runRecordSaleTransaction wStore "tw" 0 wMissingData).transactions = wStore.transactions ∧
      (runRecordSaleTransaction wStore "tw" 0 wMissingData).saleItems = wStore.saleItems ∧
      (runRecordSaleTransaction wStore "tw" 0 wMissingData).inventory = wStore.inventory) := by
  have h : ∃ item ∈ wMissingData.items, failsValidation wStore.inventory "tw" item := by
    refine ⟨⟨"zz", 1, 100⟩, ?_, Or.inl rfl⟩
    simp [wMissingData]
  exact ⟨h, recordSale_validation_failure_aborts_all wStore "tw" 0 wMissingData h⟩

/-- C4: every committed sale appends exactly one transaction document and its
sale lines, and they satisfy the totals invariant:
`total = subtotal + tax − discount` (stored tax/discount read as 0 when
unset), `subtotal = Σ line.lineTotal`, and each line's
`lineTotal = quantitySold × pricePerItem`. -/
theorem recordSale_committed_totals_invariant
    (store : Store) (teamId : String) (now : Int) (data : TransactionData) (s : Store)
    (h : recordSaleTransaction store teamId now data = .ok s) :
    ∃ t lines,
      s.transactions = store.transactions ++ [t] ∧
      s.saleItems = store.saleItems ++ lines ∧
      t.total = t.subtotal + t.tax.getD 0 - t.discount.getD 0 ∧
      t.subtotal = (lines.map (fun l => l.lineTotal)).sum ∧
      (∀ l ∈ lines, l.lineTotal = l.quantitySold * l.pricePerItem) := by
  unfold recordSaleTransaction at h
  by_cases hne : data.items.length = 0
  · rw [if_pos hne] at h
    simp at h
  · rw [if_neg hne] at h
    cases hv : validateItems store.inventory teamId data.items with
    | error e => rw [hv] at h; simp at h
    | ok p =>
      obtain ⟨updates, subtotal⟩ := p
      rw [hv] at h
      simp only [Except.ok.injEq] at h
      subst h
      refine ⟨_, _, rfl, rfl, ?_, ?_, ?_⟩
      · by_cases h1 : data.tax.getD 0 = 0 <;> by_cases h2 : data.discount.getD 0 = 0 <;>
          simp [h1, h2]
      · have hsub := validateItems_ok_subtotal store.inventory teamId data.items updates subtotal hv
        simpa [List.map_map, Function.comp] using hsub
      · intro l hl
        obtain ⟨item, hitem, rfl⟩ := List.mem_map.mp hl
        exact Int.mul_comm item.pricePerItemCents item.quantitySold

/-- C4 witness: committing 2 units at 150 cents with tax 10 and discount 5
yields a transaction and lines satisfying the totals invariant. -/
theorem recordSale_committed_totals_invariant_witness :
    recordSaleTransaction wStore "tw" 0 wOkData =
      .ok (runRecordSaleTransaction wStore "tw" 0 wOkData) ∧
    ∃ t lines,
      (runRecordSaleTransaction wStore "tw" 0 wOkData).transactions =
        wStore.transactions ++ [t] ∧
      (runRecordSaleTransaction wStore "tw" 0 wOkData).saleItems =
        wStore.saleItems ++ lines ∧
      t.total = t.subtotal + t.tax.getD 0 - t.discount.getD 0 ∧
      t.subtotal = (lines.map (fun l => l.lineTotal)).sum ∧
      (∀ l ∈ lines, l.lineTotal = l.quantitySold * l.pricePerItem) := by
  have h : recordSaleTransaction wStore "tw" 0 wOkData =
      .ok (runRecordSaleTransaction wStore "tw" 0 wOkData) := by rfl
  exact ⟨h, recordSale_committed_totals_invariant wStore "tw" 0 wOkData _ h⟩

/-- C6: under the direct-batch-cost strategy, for every batch with the
schema-guaranteed positive `purchaseQuantity` and `unitsPerPack`, the
displayed per-unit cost (in cents, i.e. 100 × the dollars expression of
SalesPage/InventoryPage) equals `totalCost / max(1, purchaseQuantity ×
unitsPerPack)`; scenario A: `totalCost = 2400`, 1 pack of 24 → 100
cents/unit, selling 3 units at 150 cents commits `lineTotal = 450`, and
`itemCOGS = unitCost × 3 = 300`. -/
theorem salesPage_direct_unit_cost :
    (∀ inv : InventoryItem, 1 ≤ inv.purchaseQuantity → 1 ≤ inv.unitsPerPack →
      100 * salesPageUnitCostDollars inv =
        (inv.totalCost : ℚ) / ((max 1 (inv.purchaseQuantity * inv.unitsPerPack) : Int) : ℚ)) ∧
    100 * salesPageUnitCostDollars c6Batch = 100 ∧
    commitSucceeded (recordSaleTransaction c6Store "t6" 0 c6Data) = true ∧
    ((runRecordSaleTransaction c6Store "t6" 0 c6Data).saleItems.map (fun l => l.lineTotal)) = [450] ∧
    100 * salesPageUnitCostDollars c6Batch * 3 = 300 := by
  refine ⟨?_, ?_, by decide, by decide, ?_⟩
  · intro inv hpq hupp
    have hpq0 : inv.purchaseQuantity ≠ 0 := by omega
    have hupp0 : inv.unitsPerPack ≠ 0 := by omega
    have hprod : (1 : Int) ≤ inv.purchaseQuantity * inv.unitsPerPack := by nlinarith
    have hmax : max 1 (inv.purchaseQuantity * inv.unitsPerPack) =
        inv.purchaseQuantity * inv.unitsPerPack := max_eq_right hprod
    rw [hmax]
    simp only [salesPageUnitCostDollars]
    rw [if_neg hpq0, if_neg hupp0]
    have hne : ((inv.purchaseQuantity * inv.unitsPerPack : Int) : ℚ) ≠ 0 := by
      simpa using Int.mul_ne_zero hpq0 hupp0
    field_simp
    ring
  · norm_num [salesPageUnitCostDollars, c6Batch]
  · norm_num [salesPageUnitCostDollars, c6Batch]

/-- C6 witness: the direct-cost formula applied to the scenario A batch. -/
theorem salesPage_direct_unit_cost_witness :
    (1 : Int) ≤ c6Batch.purchaseQuantity ∧ (1 : Int) ≤ c6Batch.unitsPerPack ∧
    100 * salesPageUnitCostDollars c6Batch =
      (c6Batch.totalCost : ℚ) /
        ((max 1 (c6Batch.purchaseQuantity * c6Batch.unitsPerPack) : Int) : ℚ) :=
  ⟨by decide, by decide, salesPage_direct_unit_cost.1 c6Batch (by decide) (by decide)⟩

/-- C8: under the pooled strategy the per-unit cost is the lot's total cost
divided by the summed `initialQuantity` of the batches sharing the lot, and
`0` when that sum is `0`; scenario B: lot cost 100000 over 50 + 50 received
units gives unit cost 1000, and a 10-unit sale contributes `itemCOGS =
10000`. -/
theorem pooled_wac_formula :
    (∀ (shipment : Shipment) (inventoryItems : List InventoryItem),
      (shipmentUnitsReceived shipment inventoryItems = 0 →
        calculateShipmentWAC shipment inventoryItems = 0) ∧
      (shipmentUnitsReceived shipment inventoryItems ≠ 0 →
        calculateShipmentWAC shipment inventoryItems =
          (shipment.totalCost : ℚ) / ((shipmentUnitsReceived shipment inventoryItems : Int) : ℚ))) ∧
    shipmentUnitsReceived c8Shipment [c8BatchA, c8BatchB] = 100 ∧
    calculateShipmentWAC c8Shipment [c8BatchA, c8BatchB] = 1000 ∧
    (calculateSaleItemsCOGS [c8SaleItem] [c8BatchA, c8BatchB] [c8Shipment]).totalCOGS = 10000 := by
  refine ⟨?_, by decide, ?_, ?_⟩
  · intro shipment invs
    constructor
    · intro h; simp [calculateShipmentWAC, h]
    · intro h; simp [calculateShipmentWAC, h]
  · norm_num [calculateShipmentWAC, shipmentUnitsReceived, c8Shipment, c8BatchA, c8BatchB]
  · norm_num [calculateSaleItemsCOGS, calculateShipmentWAC, shipmentUnitsReceived,
      c8Shipment, c8BatchA, c8BatchB, c8SaleItem]

/-- C8 witness: the pooled formula applied to the scenario B lot. -/
theorem pooled_wac_formula_witness :
    shipmentUnitsReceived c8Shipment [c8BatchA, c8BatchB] ≠ 0 ∧
    calculateShipmentWAC c8Shipment [c8BatchA, c8BatchB] =
      (c8Shipment.totalCost : ℚ) /
        ((shipmentUnitsReceived c8Shipment [c8BatchA, c8BatchB] : Int) : ℚ) :=
  ⟨by decide, (pooled_wac_formula.1 c8Shipment [c8BatchA, c8BatchB]).2 (by decide)⟩

/-- Shifting the accumulator out of a sum-shaped `foldl`. -/
theorem foldl_add_shift {α : Type} (f : α → Int) :
    ∀ (l : List α) (init : Int),
      l.foldl (fun sum x => sum + f x) init = init + l.foldl (fun sum x => sum + f x) 0 := by
  intro l
  induction l with
  | nil => intro init; simp
  | cons a t ih =>
    intro init
    simp only [List.foldl_cons]
    rw [ih (init + f a), ih (0 + f a)]
    ring

/-- C9: a sold-line record (sale item or legacy sale) whose `inventoryId`
matches no inventory item is skipped by the COGS aggregation — the result,
total and itemized output alike, is exactly that of the remaining records,
and the total functions never fail — while the dashboard revenue reductions
take no inventory input at all and count every record's full amount. -/
theorem cogs_skips_unresolvable_batch :
    (∀ (item : SaleItem) (rest : List SaleItem) (inventoryItems : List InventoryItem)
        (shipments : List Shipment),
      (∀ inv ∈ inventoryItems, inv.id ≠ item.inventoryId) →
      calculateSaleItemsCOGS (item :: rest) inventoryItems shipments =
        calculateSaleItemsCOGS rest inventoryItems shipments) ∧
    (∀ (sale : LegacySale) (rest : List LegacySale) (inventoryItems : List InventoryItem)
        (shipments : List Shipment),
      (∀ inv ∈ inventoryItems, inv.id ≠ sale.inventoryId) →
      calculateLegacySalesCOGS (sale :: rest) inventoryItems shipments =
        calculateLegacySalesCOGS rest inventoryItems shipments) ∧
    (∀ (t : Transaction) (ts : List Transaction),
      transactionRevenueAll (t :: ts) = t.total + transactionRevenueAll ts) ∧
    (∀ (sale : LegacySale) (rest : List LegacySale),
      legacyRevenueAll (sale :: rest) =
        sale.pricePerItem * sale.quantitySold + legacyRevenueAll rest) := by
  refine ⟨?_, ?_, ?_, ?_⟩
  · intro item rest invs ships h
    have hf : invs.find? (fun inv => inv.id == item.inventoryId) = none := by
      rw [List.find?_eq_none]
      intro x hx
      simp [h x hx]
    simp [calculateSaleItemsCOGS, hf]
  · intro sale rest invs ships h
    have hf : invs.find? (fun inv => inv.id == sale.inventoryId) = none := by
      rw [List.find?_eq_none]
      intro x hx
      simp [h x hx]
    simp [calculateLegacySalesCOGS, hf]
  · intro t ts
    simp only [transactionRevenueAll, List.foldl_cons]
    rw [foldl_add_shift (fun x => x.total) ts (0 + t.total)]
    ring_nf
  · intro sale rest
    simp only [legacyRevenueAll, List.foldl_cons]
    rw [foldl_add_shift (fun x => x.pricePerItem * x.quantitySold) rest
      (0 + sale.pricePerItem * sale.quantitySold)]
    ring_nf

/-- C9 witness: a sale item referencing batch id `ghost`, absent from the
inventory list, contributes nothing to the aggregation. -/
theorem cogs_skips_unresolvable_batch_witness :
    (∀ inv ∈ [c8BatchA], inv.id ≠ c9OrphanItem.inventoryId) ∧
    calculateSaleItemsCOGS [c9OrphanItem] [c8BatchA] [c8Shipment] =
      calculateSaleItemsCOGS [] [c8BatchA] [c8Shipment] := by
  have h : ∀ inv ∈ [c8BatchA], inv.id ≠ c9OrphanItem.inventoryId := by decide
  exact ⟨h, cogs_skips_unresolvable_batch.1 c9OrphanItem [] [c8BatchA] [c8Shipment] h⟩

/-- The total of `calculateSaleItemsCOGS` is the sum of the per-record
contributions. -/
theorem calculateSaleItemsCOGS_total_eq_sum :
    ∀ (saleItems : List SaleItem) (inventoryItems : List InventoryItem)
      (shipments : List Shipment),
      (calculateSaleItemsCOGS saleItems inventoryItems shipments).totalCOGS =
        (saleItems.map (saleItemContribution inventoryItems shipments)).sum := by
  intro saleItems invs ships
  induction saleItems with
  | nil => simp [calculateSaleItemsCOGS]
  | cons item rest ih =>
    cases hf : invs.find? (fun inv => inv.id == item.inventoryId) with
    | none => simp [calculateSaleItemsCOGS, saleItemContribution, hf, ih]
    | some inventory =>
      cases hs : ships.find? (fun s => inventory.shipmentId == some s.id) with
      | none => simp [calculateSaleItemsCOGS, saleItemContribution, hf, hs, ih]
      | some shipment => simp [calculateSaleItemsCOGS, saleItemContribution, hf, hs, ih]

/-- The total of `calculateLegacySalesCOGS` is the sum of the per-record
contributions. -/
theorem calculateLegacySalesCOGS_total_eq_sum :
    ∀ (legacySales : List LegacySale) (inventoryItems : List InventoryItem)
      (shipments : List Shipment),
      (calculateLegacySalesCOGS legacySales inventoryItems shipments).totalCOGS =
        (legacySales.map (legacySaleContribution inventoryItems shipments)).sum := by
  intro legacySales invs ships
  induction legacySales with
  | nil => simp [calculateLegacySalesCOGS]
  | cons sale rest ih =>
    cases hf : invs.find? (fun inv => inv.id == sale.inventoryId) with
    | none => simp [calculateLegacySalesCOGS, legacySaleContribution, hf, ih]
    | some inventory =>
      cases hs : ships.find? (fun s => inventory.shipmentId == some s.id) with
      | none => simp [calculateLegacySalesCOGS, legacySaleContribution, hf, hs, ih]
      | some shipment => simp [calculateLegacySalesCOGS, legacySaleContribution, hf, hs, ih]

/-- The sale items kept by the date-range filter are exactly those whose
parent transaction lies in the inclusive window. -/
theorem filter_saleItems_window (saleItems : List SaleItem) (transactions : List Transaction)
    (startDate endDate : Int) :
    saleItems.filter (fun item =>
      ((transactions.filter (fun t =>
          decide (startDate ≤ t.saleDate) && decide (t.saleDate ≤ endDate))).map
        (fun t => t.id)).contains item.transactionId) =
    saleItems.filter (fun item => decide (∃ t ∈ transactions,
      t.id = item.transactionId ∧ startDate ≤ t.saleDate ∧ t.saleDate ≤ endDate)) := by
  apply List.filter_congr
  intro item _
  rw [Bool.eq_iff_iff]
  simp only [List.contains_iff_exists_mem_beq, List.mem_map, List.mem_filter, Bool.and_eq_true,
    decide_eq_true_eq, beq_iff_eq]
  constructor
  · rintro ⟨a, ⟨t, ⟨htmem, h1, h2⟩, rfl⟩, heq⟩
    exact ⟨t, htmem, heq.symm, h1, h2⟩
  · rintro ⟨t, htmem, hid, h1, h2⟩
    exact ⟨t.id, ⟨t, ⟨htmem, h1, h2⟩, rfl⟩, hid.symm⟩

/-- C10: for every inclusive window `[startDate, endDate]`,
`calculateCOGSForDateRange` equals the sum of the COGS contributions of
exactly those sale items whose parent transaction's sale timestamp lies in
the window, plus the contributions of exactly those legacy sales whose own
timestamp lies in the window; all other records are excluded. -/
theorem cogs_date_range_exact_window :
    ∀ (saleItems : List SaleItem) (legacySales : List LegacySale)
      (inventoryItems : List InventoryItem) (shipments : List Shipment)
      (transactions : List Transaction) (startDate endDate : Int),
      calculateCOGSForDateRange saleItems legacySales inventoryItems shipments
          transactions startDate endDate =
        ((saleItems.filter (fun item => decide (∃ t ∈ transactions,
            t.id = item.transactionId ∧ startDate ≤ t.saleDate ∧ t.saleDate ≤ endDate))).map
          (saleItemContribution inventoryItems shipments)).sum +
        ((legacySales.filter (fun sale =>
            decide (startDate ≤ sale.saleDate ∧ sale.saleDate ≤ endDate))).map
          (legacySaleContribution inventoryItems shipments)).sum := by
  intro saleItems legacySales invs ships txs s e
  simp only [calculateCOGSForDateRange, calculateTotalCOGS]
  rw [filter_saleItems_window]
  rw [calculateSaleItemsCOGS_total_eq_sum, calculateLegacySalesCOGS_total_eq_sum]
  simp [Bool.decide_and]

end Peev
